import Mathlib

/-!
Verification of the prompt-resolution routine (`src/promptManager.js`) and the
conversation-persistence handler (`src/index.ts` / `src/db.ts`) of the
LivekitAgentBuilder backend.

The JavaScript/TypeScript source is shallowly embedded: JSON-compatible
runtime values become the inductive type `Value`; the platform builtins the
code relies on (property access `acc[k]`, truthiness, `String(...)`,
`String.prototype.trim`, `String.prototype.split`, and the regex scan of
`String.prototype.replace` with the pattern `/\x7b\x7b\s*([\w.]+)\s*\x7d\x7d/g`)
are modelled explicitly below.  Scope of the value model: JSON numbers are
modelled as integers, and property lookup covers own properties of objects
together with the `Object.prototype` members a plain object inherits
(`objProtoMembers`), and numeric indices and `length` of arrays and
strings; the remaining prototype-chain members are not modelled, and every
theorem that depends on a lookup missing confines its keys with
`keyAvoidsProto` to the region where the model's lookup coincides with
JavaScript's.  `JSON.parse` is taken as an
abstract parameter `parse` wherever the source invokes it.  The remote
Langfuse client is modelled as an oracle (`Client`) recording which lookups
the code performs.
-/

namespace LKB

/-- A JavaScript runtime value reachable in the program: the JSON values,
plus native built-in functions (`fn name`), which enter only through
prototype-chain property lookup (e.g. `(\x7b\x7d)["toString"]` is
`Object.prototype.toString`). -/
inductive Value where
  | null
  | bool (b : Bool)
  | num (n : Int)
  | str (s : String)
  | arr (xs : List Value)
  | obj (fields : List (String × Value))
  | fn (name : String)

/-- JavaScript truthiness (`Boolean(v)`): `null`, `false`, `0` and `""` are
falsy; every object, array and function is truthy. -/
def truthy : Value → Bool
  | .null => false
  | .bool b => b
  | .num n => n != 0
  | .str s => s != ""
  | .arr _ => true
  | .obj _ => true
  | .fn _ => true

/-- `typeof v === 'object'`: true for `null`, arrays and objects; false for
primitives and functions (`typeof fn === 'function'`). -/
def typeofObject : Value → Bool
  | .null => true
  | .arr _ => true
  | .obj _ => true
  | _ => false

/-- `a || b`: the left operand if truthy, otherwise the right one. -/
def jsOr (a b : Value) : Value :=
  if truthy a then a else b

/-- Own-property lookup in an object's field list (fields are assumed to have
distinct keys, as produced by `JSON.parse`). -/
def lookupField : List (String × Value) → String → Option Value
  | [], _ => none
  | (k', v) :: rest, k => if k' = k then some v else lookupField rest k

mutual

/-- JavaScript `String(v)`: strings unchanged, numbers and booleans printed,
`null` prints as `"null"`, arrays join their elements with `","` (with
`null` elements rendering empty, as `Array.prototype.join` does), plain
objects print as `"[object Object]"`, and a native built-in function prints
as V8 renders it (`function name() \x7b [native code] \x7d`). -/
def jsToString : Value → String
  | .null => "null"
  | .bool true => "true"
  | .bool false => "false"
  | .num n => toString n
  | .str s => s
  | .arr xs => String.intercalate "," (jsToStringElems xs)
  | .obj _ => "[object Object]"
  | .fn name => "function " ++ name ++ "() \x7b [native code] \x7d"

/-- Element-wise rendering used by `jsToString` on arrays. -/
def jsToStringElems : List Value → List String
  | [] => []
  | .null :: xs => "" :: jsToStringElems xs
  | x :: xs => jsToString x :: jsToStringElems xs

end

/-- Characters of the JavaScript `\s` class that can occur in our ASCII
templates (the Unicode space characters are outside the model). -/
def jsIsSpace (c : Char) : Bool :=
  c = ' ' || c = '\t' || c = '\n' || c = '\r' || c = '\x0b' || c = '\x0c'

/-- Characters matched by the JavaScript `[\w.]` class: ASCII letters,
digits, underscore and the dot. -/
def isWordDot (c : Char) : Bool :=
  c.isAlpha || c.isDigit || c = '_' || c = '.'

/-- `String.prototype.trim`, on the `\s` class above. -/
def jsTrim (s : String) : String :=
  String.mk (((s.toList.dropWhile jsIsSpace).reverse.dropWhile jsIsSpace).reverse)

/-- Canonical array-index parse: `v[k]` on an array or string hits an element
exactly when `k` is the decimal numeral of an index without leading zeros. -/
def parseIndex (k : String) : Option Nat :=
  match k.toList with
  | [] => none
  | c :: cs =>
    if (c :: cs).all Char.isDigit && (c ≠ '0' || cs = []) then
      some ((c :: cs).foldl (fun n d => n * 10 + (d.toNat - 48)) 0)
    else none

/-- The string-keyed members a plain object inherits from
`Object.prototype`: its function-valued members (each entry is the actual
value `(\x7b\x7d)[k]` yields in Node).  The accessor `__proto__`, which
yields the prototype object itself, and the properties of the function
values below are not carried further by the model; every theorem whose
truth depends on a lookup *missing* therefore confines its keys with
`keyAvoidsProto`, so the model is never required to miss where the program
would not. -/
def objProtoMembers : List (String × Value) :=
  [("constructor", .fn "Object"),
   ("hasOwnProperty", .fn "hasOwnProperty"),
   ("isPrototypeOf", .fn "isPrototypeOf"),
   ("propertyIsEnumerable", .fn "propertyIsEnumerable"),
   ("toLocaleString", .fn "toLocaleString"),
   ("toString", .fn "toString"),
   ("valueOf", .fn "valueOf"),
   ("__defineGetter__", .fn "__defineGetter__"),
   ("__defineSetter__", .fn "__defineSetter__"),
   ("__lookupGetter__", .fn "__lookupGetter__"),
   ("__lookupSetter__", .fn "__lookupSetter__")]

/-- JavaScript property access `v[k]` (returning `none` for `undefined`),
for keys drawn from the `[\w.]` segments of a template placeholder:
objects expose their own fields, shadowing what `Object.prototype` supplies
for the remaining keys; arrays and strings expose `length` and their
canonical numeric indices.  Prototype members beyond `objProtoMembers`
(array/string/number/boolean prototype methods, `__proto__`, and the
properties of function values) are not modelled: lookups the program would
answer from those chains are excluded from the relevant theorems via the
`keyAvoidsProto` hypothesis rather than mis-modelled as `undefined`. -/
def index : Value → String → Option Value
  | .obj fields, k =>
    match lookupField fields k with
    | some v => some v
    | none => lookupField objProtoMembers k
  | .arr xs, k =>
    if k = "length" then some (.num xs.length)
    else (parseIndex k).bind fun i => xs.get? i
  | .str s, k =>
    if k = "length" then some (.num s.length)
    else (parseIndex k).bind fun i => (s.toList.get? i).map fun c => .str (String.mk [c])
  | _, _ => none

/-- `key.split('.')` on the character list of the key (the separator is the
single character `'.'`; empty segments are kept, as in JavaScript). -/
def splitSegsAux : List Char → List Char → List String
  | [], acc => [String.mk acc.reverse]
  | '.' :: rest, acc => String.mk acc.reverse :: splitSegsAux rest []
  | c :: rest, acc => splitSegsAux rest (c :: acc)

/-- The dot-separated segments of a placeholder key, as `key.split('.')`
produces them. -/
def splitSegs (key : String) : List String :=
  splitSegsAux key.toList []

/-- A superset of the `[\w]`-only property names that JSON values inherit
from the built-in prototype chains (`Object.prototype`, `Array.prototype`,
`String.prototype`, `Number.prototype`, `Boolean.prototype` in Node 20) —
`length` is excluded because the model carries it as an own property of
arrays and strings.  A key whose segments all avoid this list is resolved
by the program exactly as by `index`: own-field, index and `length`
lookups, with everything else `undefined`. -/
def protoNames : List String :=
  ["constructor", "hasOwnProperty", "isPrototypeOf", "propertyIsEnumerable",
   "toLocaleString", "toString", "valueOf",
   "__defineGetter__", "__defineSetter__", "__lookupGetter__", "__lookupSetter__",
   "__proto__",
   "at", "concat", "copyWithin", "entries", "every", "fill", "filter", "find",
   "findIndex", "findLast", "findLastIndex", "flat", "flatMap", "forEach",
   "includes", "indexOf", "join", "keys", "lastIndexOf", "map", "pop", "push",
   "reduce", "reduceRight", "reverse", "shift", "slice", "some", "sort",
   "splice", "toReversed", "toSorted", "toSpliced", "unshift", "values", "with",
   "anchor", "big", "blink", "bold", "charAt", "charCodeAt", "codePointAt",
   "endsWith", "fixed", "fontcolor", "fontsize", "isWellFormed", "italics",
   "link", "localeCompare", "match", "matchAll", "normalize", "padEnd",
   "padStart", "repeat", "replace", "replaceAll", "search", "small", "split",
   "startsWith", "strike", "sub", "substr", "substring", "sup",
   "toLocaleLowerCase", "toLocaleUpperCase", "toLowerCase", "toUpperCase",
   "toWellFormed", "trim", "trimEnd", "trimLeft", "trimRight", "trimStart",
   "toExponential", "toFixed", "toPrecision"]

/-- Whether every dot-separated segment of a placeholder key avoids the
prototype-inherited property names, i.e. the key lies in the region where
the embedding's lookup coincides with JavaScript's. -/
def keyAvoidsProto (key : String) : Bool :=
  (splitSegs key).all fun s => !(protoNames.contains s)

/-- One step of the source's reduce
`(acc, k) => (acc && acc[k] !== undefined ? acc[k] : undefined)`:
once the accumulator is `undefined` (or a falsy value) every later step
yields `undefined`. -/
def lookupStep (acc : Option Value) (k : String) : Option Value :=
  match acc with
  | some v => if truthy v then index v k else none
  | none => none

/-- The source's nested-key resolution:
`key.split('.').reduce((acc, k) => (acc && acc[k] !== undefined ? acc[k] : undefined), vars)`. -/
def pathResolve (vars : Value) (key : String) : Option Value :=
  (splitSegs key).foldl lookupStep (some vars)

/-- The replacement callback of `manualCompile`:
`value === undefined || value === null ? '' : String(value)`. -/
def renderKey (vars : Value) (key : String) : String :=
  match pathResolve vars key with
  | none => ""
  | some .null => ""
  | some v => jsToString v

/-- Attempt to match the regex `/\x7b\x7b\s*([\w.]+)\s*\x7d\x7d/` at the very
start of the character list; on success return the captured key and the
characters after the match.  The pattern's greedy runs need no backtracking:
`\s` and `[\w.]` and `\x7d` are pairwise disjoint character classes. -/
def tryMatchAt (cs : List Char) : Option (String × List Char) :=
  match cs with
  | c1 :: c2 :: rest =>
    if c1 = '{' ∧ c2 = '{' then
      if (rest.dropWhile jsIsSpace).takeWhile isWordDot = [] then none
      else
        match ((rest.dropWhile jsIsSpace).dropWhile isWordDot).dropWhile jsIsSpace with
        | d1 :: d2 :: tail =>
          if d1 = '}' ∧ d2 = '}' then
            some (String.mk ((rest.dropWhile jsIsSpace).takeWhile isWordDot), tail)
          else none
        | _ => none
    else none
  | _ => none

/-- A template decomposes into literal characters and placeholder keys. -/
inductive Token where
  | lit (c : Char)
  | hole (key : String)

/-- Fuelled left-to-right scan of the template, as the `g`-flagged
`String.prototype.replace` performs it: at each position try the regex; on a
match emit the captured key and continue after the match, otherwise emit the
character and move one position right.  One unit of fuel is spent per step,
so `fuel = cs.length` always suffices. -/
def tokensFuel : Nat → List Char → List Token
  | 0, cs => cs.map .lit
  | fuel + 1, cs =>
    match tryMatchAt cs with
    | some (key, rest) => .hole key :: tokensFuel fuel rest
    | none =>
      match cs with
      | [] => []
      | c :: cs' => .lit c :: tokensFuel fuel cs'

/-- The token decomposition of a template. -/
def tokens (cs : List Char) : List Token :=
  tokensFuel cs.length cs

/-- The placeholder keys of a template, in scan order. -/
def keys (cs : List Char) : List String :=
  (tokens cs).filterMap fun t => match t with | .hole k => some k | .lit _ => none

/-- Re-assemble a token list, substituting `r k` for each placeholder key
`k`.  Substituted text is spliced in verbatim — it is not re-scanned. -/
def renderTokens (r : String → String) : List Token → List Char
  | [] => []
  | .lit c :: ts => c :: renderTokens r ts
  | .hole k :: ts => (r k).toList ++ renderTokens r ts

/-- `template.replace(/\x7b\x7b\s*([\w.]+)\s*\x7d\x7d/g, (_m, key) => r key)`. -/
def replaceWith (r : String → String) (cs : List Char) : List Char :=
  renderTokens r (tokens cs)

/-- `toStringPrompt`'s per-message rendering for chat arrays:
`m && typeof m === 'object' ? String(m.content ?? '') : String(m ?? '')`. -/
def chatPiece : Value → String
  | .obj fields =>
    match lookupField fields "content" with
    | none => ""
    | some .null => ""
    | some c => jsToString c
  | .arr _ => ""
  | .null => ""
  | m => jsToString m

/-- `toStringPrompt` from `src/promptManager.js`: a string is returned as
is; an array (chat prompt) joins its messages' `content` with newlines; any
other value is `String(value ?? '')`. -/
def toStringPrompt : Value → String
  | .str s => s
  | .arr ms => String.intercalate "\n" (ms.map chatPiece)
  | .null => ""
  | v => jsToString v

/-- `manualCompile` from `src/promptManager.js`, on an arbitrary template
value: coerce the template to a string with `toStringPrompt`, then replace
every `\x7b\x7b key \x7d\x7d` placeholder using `renderKey`. -/
def manualCompileV (template : Value) (vars : Value) : String :=
  String.mk (replaceWith (renderKey vars) (toStringPrompt template).toList)

/-- `manualCompile` applied to a template that is already a string (on which
`toStringPrompt` is the identity). -/
def manualCompile (template : String) (vars : Value) : String :=
  manualCompileV (.str template) vars

/-- The spec's description of path resolution: "resolve each segment against
the variable mapping by successive key lookup, short-circuiting to
undefined if any segment is missing or the current value is not a
mapping". -/
def specStep (acc : Option Value) (k : String) : Option Value :=
  match acc with
  | some (.obj fields) => lookupField fields k
  | _ => none

/-- Spec-side resolution of a whole dot-separated key. -/
def specResolve (vars : Value) (key : String) : Option Value :=
  (splitSegs key).foldl specStep (some vars)

/-- Whether a key resolves per the spec's successive-mapping-lookup rule to a
defined (non-null, non-undefined) value. -/
def specResolvesDefined (vars : Value) (key : String) : Bool :=
  match specResolve vars key with
  | some .null => false
  | some _ => true
  | none => false

/-- The spec's rendering of a resolved placeholder: missing/undefined paths
render empty, others via their string form. -/
def renderSpec (vars : Value) (key : String) : String :=
  match specResolve vars key with
  | some v => jsToString v
  | none => ""

/-- Whether the code's own lookup leaves the placeholder unresolved
(`undefined`). -/
def codeUnresolved (vars : Value) (key : String) : Bool :=
  (pathResolve vars key).isNone

/-! ## The prompt-resolution entry point `generatePrompt` -/

/-- A prompt fetched from the remote service: an optional `compile`
capability (which may itself throw, modelled by `Except`), and the raw
`prompt` payload used by the manual-substitution path. -/
structure RemotePrompt where
  compile : Option (Value → Except Unit Value)
  prompt : Value

/-- Outcome of one `langfuse.prompt.get` call: the promise resolves with a
prompt, resolves with a nullish value (so the subsequent `if (!fetched)`
throws), or rejects. -/
inductive FetchOutcome where
  | ok (p : RemotePrompt)
  | nullish
  | fail

/-- The remote prompt client, as an oracle from (name, optional label) to an
outcome. -/
structure Client where
  get : String → Option String → FetchOutcome

/-- One remote lookup performed by a resolution: the prompt name and the
label passed (if any). -/
abbrev RemoteCall := String × Option String

/-- The request object `details`, restricted to the four fields
`generatePrompt` reads.  `prompt_text` and `prompt_variables` are kept as
arbitrary values because the source type-checks them at runtime. -/
structure Details where
  prompt_name : Option String := none
  prompt_label : Option String := none
  prompt_text : Option Value := none
  prompt_variables : Option Value := none

/-- `details?.prompt_label || undefined`: an absent or empty label is
dropped. -/
def normalizeLabel : Option String → Option String
  | none => none
  | some l => if l = "" then none else some l

/-- `typeof details?.prompt_text === 'string' ? details.prompt_text : ''`. -/
def rawPromptText : Option Value → String
  | some (.str s) => s
  | _ => ""

/-- The first two normalization steps for `prompt_variables`:
`details?.prompt_variables ?? \x7b\x7d`, then, if the result is a string,
`JSON.parse` it, degrading to the empty object when parsing throws. -/
def afterParse (parse : String → Except Unit Value) : Option Value → Value
  | none => .obj []
  | some .null => .obj []
  | some (.str s) =>
    match parse s with
    | .ok w => w
    | .error _ => .obj []
  | some v => v

/-- Full variable normalization, ending with the source's guard
`if (!variables || typeof vars !== 'object') variables = \x7b\x7d`. -/
def normalizeVariables (parse : String → Except Unit Value) (pv : Option Value) : Value :=
  if truthy (afterParse parse pv) && typeofObject (afterParse parse pv) then
    afterParse parse pv
  else .obj []

/-- The static fallback template of `src/promptManager.js`. -/
def staticPrompt : String :=
  "You are a helpful, concise voice assistant. Provide clear, direct answers."

/-- The message of the `throw` on a missing `prompt_name`. -/
def missingNameMsg : String := "Missing prompt_name in details"

/-- Lines 89–99 and the surrounding catch of `src/promptManager.js`: compile
the fetched prompt with its own `compile` if it has one (a throwing
`compile` lands in the outer catch, i.e. the static fallback), otherwise run
`manualCompile(fetched.prompt || '', variables)`; the result is coerced with
`toStringPrompt` (the identity on the already-string manual result). -/
def compileFetched (p : RemotePrompt) (vars : Value) : String :=
  match p.compile with
  | some f =>
    match f vars with
    | .ok v => toStringPrompt v
    | .error _ => manualCompile staticPrompt vars
  | none => manualCompileV (jsOr p.prompt (.str "")) vars

/-- The body of `generatePrompt` after the `prompt_name` validation has
passed (name `n`, normalized label, raw `prompt_text` string, normalized
variables): the inline-override check, the unconfigured-client fallback, and
the remote fetch with its label-then-no-label retry and layered fallback.
The second component records the remote lookups in the order the source
performs them.  (`manualCompile ... || ''` in the source is the identity on
strings and is dropped.) -/
def resolveNamed (lf : Option Client) (n : String) (label : Option String)
    (promptTextRaw : String) (vars : Value) :
    Except String String × List RemoteCall :=
  if (jsTrim promptTextRaw).length > 0 then
    (.ok (manualCompile (jsTrim promptTextRaw) vars), [])
  else
    match lf with
    | none => (.ok (manualCompile staticPrompt vars), [])
    | some client =>
      match client.get n label with
      | .ok p => (.ok (compileFetched p vars), [(n, label)])
      | .nullish => (.ok (manualCompile staticPrompt vars), [(n, label)])
      | .fail =>
        match client.get n none with
        | .ok p => (.ok (compileFetched p vars), [(n, label), (n, none)])
        | .nullish => (.ok (manualCompile staticPrompt vars), [(n, label), (n, none)])
        | .fail => (.ok (manualCompile staticPrompt vars), [(n, label), (n, none)])

/-- `generatePrompt` from `src/promptManager.js`.  `lf` is the module-level
Langfuse client (absent when credentials are missing), `parse` stands for
`JSON.parse`.  The result pairs the returned string (or the thrown error,
as `Except.error`) with the list of remote lookups performed.  A falsy
(`none` or empty) `prompt_name` hits the `throw` on line 37 before any other
behaviour. -/
def generatePrompt (lf : Option Client) (parse : String → Except Unit Value)
    (d : Details) : Except String String × List RemoteCall :=
  match d.prompt_name with
  | none => (.error missingNameMsg, [])
  | some n =>
    if n = "" then (.error missingNameMsg, [])
    else
      resolveNamed lf n (normalizeLabel d.prompt_label) (rawPromptText d.prompt_text)
        (normalizeVariables parse d.prompt_variables)

/-! ## The conversation-persistence handler (`POST /api/conversations`) -/

/-- The request body of `POST /api/conversations`, restricted to the fields
the handler reads.  Absent JSON fields are `Value.null` (the handler treats
`undefined` and `null` alike everywhere it looks at them); `id` is kept at
its declared type `string | undefined`. -/
structure ConvBody where
  conversation_type : Value := .null
  agent_name : Value := .null
  webhook_link : Value := .null
  prompt_name : Value := .null
  prompt_label : Value := .null
  company_name : Value := .null
  prompt_text : Value := .null
  agent_description : Value := .null
  media_mode : Value := .null
  prompt_variables : Value := .null
  ui_variables : Value := .null
  id : Option String := none

/-- `src/index.ts` line 117:
`media_mode = media_mode === 'audio_video' ? 'audio_video' : 'audio_only'`. -/
def handlerMediaMode : Value → String
  | .str s => if s = "audio_video" then "audio_video" else "audio_only"
  | _ => "audio_only"

/-- `src/db.ts` line 154, the value bound to the `media_mode` column
parameter: `media_mode === 'audio_video' ? 'audio_video' : 'audio_only'`. -/
def dbMediaMode : Option String → String
  | some s => if s = "audio_video" then "audio_video" else "audio_only"
  | none => "audio_only"

/-- `(x && typeof x === 'object') ? x : \x7b\x7d` as used for the
`prompt_variables` / `ui_variables` / `complete_screen` insert arguments. -/
def objectOrEmpty (v : Value) : Value :=
  if truthy v && typeofObject v then v else .obj []

/-- The row the upsert in `insertConversation` writes (whether the `insert`
or the `on conflict ... do update` arm runs, the same computed values are
stored).  Only the columns relevant to the claims are carried. -/
structure ConvRow where
  id : String
  conversation_type : Value
  media_mode : String
  prompt_variables : Value
  ui_variables : Value

/-- Outcome of `POST /api/conversations` on a successfully parsed JSON body:
a 400 for missing required fields, or the row handed to
`insertConversation`. -/
inductive PostResult where
  | badRequest
  | inserted (row : ConvRow)

/-- The `POST /api/conversations` handler of `src/index.ts` (after JSON body
parsing): default the required fields with `|| ''`, reject if any is falsy,
choose the id (`body.id && body.id.trim() !== '' ? body.id : randomUUID()`,
with the fresh UUID supplied as the `uuid` argument), normalize
`media_mode`, and upsert.  The stored `media_mode` goes through the second
normalization in `src/db.ts`. -/
def postConversations (body : ConvBody) (uuid : String) : PostResult :=
  let conversation_type := jsOr body.conversation_type (.str "")
  let agent_name := jsOr body.agent_name (.str "")
  let webhook_link := jsOr body.webhook_link (.str "")
  let prompt_variables := jsOr body.prompt_variables (.obj [])
  let ui_variables := jsOr body.ui_variables (.obj [])
  if !(truthy agent_name && truthy webhook_link && truthy conversation_type) then
    .badRequest
  else
    let id :=
      match body.id with
      | some s => if jsTrim s ≠ "" then s else uuid
      | none => uuid
    let media := handlerMediaMode body.media_mode
    .inserted
      { id := id
        conversation_type := conversation_type
        media_mode := dbMediaMode (some media)
        prompt_variables := objectOrEmpty prompt_variables
        ui_variables := objectOrEmpty ui_variables }

/-! ## Concrete fixtures used by the counterexamples and witnesses -/

/-- A `JSON.parse` oracle on which every parse throws. -/
def parseFail : String → Except Unit Value := fun _ => .error ()

/-- A remote prompt with no `compile` capability and the text "Hello". -/
def helloPrompt : RemotePrompt := { compile := none, prompt := .str "Hello" }

/-- A client whose labelled lookups reject and whose unlabelled lookups
succeed with `helloPrompt`. -/
def labelFailClient : Client :=
  { get := fun _ lbl => match lbl with | some _ => .fail | none => .ok helloPrompt }

/-- A client on which every lookup succeeds with `helloPrompt`. -/
def alwaysOkClient : Client :=
  { get := fun _ _ => .ok helloPrompt }

/-- A valid conversation body carrying an invalid `media_mode`. -/
def exBody : ConvBody :=
  { conversation_type := .str "call", agent_name := .str "a",
    webhook_link := .str "w", media_mode := .str "bogus" }

/-- The row `postConversations exBody "uuid-1"` upserts. -/
def exRow : ConvRow :=
  { id := "uuid-1", conversation_type := .str "call", media_mode := "audio_only",
    prompt_variables := .obj [], ui_variables := .obj [] }

/-! ## Lemmas about the template scan -/

theorem tryMatchAt_nil : tryMatchAt [] = none := rfl

theorem tryMatchAt_some_length {cs : List Char} {k : String} {rest : List Char}
    (h : tryMatchAt cs = some (k, rest)) : rest.length < cs.length := by
  unfold tryMatchAt at h
  split at h
  · next c1 c2 cs' =>
    split at h
    · split at h
      · exact absurd h (by simp)
      · split at h
        · next d1 d2 tail heq =>
          split at h
          · have h1 : (((cs'.dropWhile jsIsSpace).dropWhile isWordDot).dropWhile jsIsSpace).length
                ≤ cs'.length := by
              calc (((cs'.dropWhile jsIsSpace).dropWhile isWordDot).dropWhile jsIsSpace).length
                  ≤ ((cs'.dropWhile jsIsSpace).dropWhile isWordDot).length :=
                    (List.dropWhile_sublist _).length_le
                _ ≤ (cs'.dropWhile jsIsSpace).length := (List.dropWhile_sublist _).length_le
                _ ≤ cs'.length := (List.dropWhile_sublist _).length_le
            rw [heq] at h1
            simp only [Option.some.injEq, Prod.mk.injEq] at h
            obtain ⟨_, hrest⟩ := h
            subst hrest
            simp only [List.length_cons] at h1 ⊢
            omega
          · exact absurd h (by simp)
        · exact absurd h (by simp)
    · exact absurd h (by simp)
  · exact absurd h (by simp)

theorem tokensFuel_congr :
    ∀ (f1 f2 : Nat) (cs : List Char), cs.length ≤ f1 → cs.length ≤ f2 →
      tokensFuel f1 cs = tokensFuel f2 cs := by
  intro f1
  induction f1 with
  | zero =>
    intro f2 cs h1 _
    have hcs : cs = [] := List.eq_nil_of_length_eq_zero (Nat.le_zero.mp h1)
    subst hcs
    cases f2 <;> simp [tokensFuel, tryMatchAt_nil]
  | succ f ih =>
    intro f2 cs h1 h2
    cases f2 with
    | zero =>
      have hcs : cs = [] := List.eq_nil_of_length_eq_zero (Nat.le_zero.mp h2)
      subst hcs
      simp [tokensFuel, tryMatchAt_nil]
    | succ f2' =>
      simp only [tokensFuel]
      cases htm : tryMatchAt cs with
      | some kr =>
        obtain ⟨k, rest⟩ := kr
        have hlt := tryMatchAt_some_length htm
        dsimp only
        rw [ih f2' rest (by omega) (by omega)]
      | none =>
        cases cs with
        | nil => rfl
        | cons c cs' =>
          simp only [List.length_cons] at h1 h2
          dsimp only
          rw [ih f2' cs' (by omega) (by omega)]

theorem tokensFuel_eq_tokens {fuel : Nat} {cs : List Char} (h : cs.length ≤ fuel) :
    tokensFuel fuel cs = tokens cs :=
  tokensFuel_congr fuel cs.length cs h (Nat.le_refl _)

theorem tokens_nil : tokens [] = [] := rfl

theorem tokens_some {cs : List Char} {k : String} {rest : List Char}
    (h : tryMatchAt cs = some (k, rest)) :
    tokens cs = .hole k :: tokens rest := by
  have hlt := tryMatchAt_some_length h
  cases cs with
  | nil => exact absurd (tryMatchAt_nil ▸ h) (by simp)
  | cons c cs' =>
    show tokensFuel (cs'.length + 1) (c :: cs') = _
    simp only [tokensFuel, h]
    rw [tokensFuel_eq_tokens (by simpa using Nat.lt_succ_iff.mp (by simpa using hlt))]

theorem tokens_cons_none {c : Char} {cs' : List Char} (h : tryMatchAt (c :: cs') = none) :
    tokens (c :: cs') = .lit c :: tokens cs' := by
  show tokensFuel (cs'.length + 1) (c :: cs') = _
  simp only [tokensFuel, h]
  rfl

theorem keys_nil : keys [] = [] := rfl

theorem keys_some {cs : List Char} {k : String} {rest : List Char}
    (h : tryMatchAt cs = some (k, rest)) : keys cs = k :: keys rest := by
  simp [keys, tokens_some h]

theorem keys_cons_none {c : Char} {cs' : List Char} (h : tryMatchAt (c :: cs') = none) :
    keys (c :: cs') = keys cs' := by
  simp [keys, tokens_cons_none h]

theorem hole_mem_tokens_iff_mem_keys {cs : List Char} {k : String} :
    Token.hole k ∈ tokens cs ↔ k ∈ keys cs := by
  constructor
  · intro h
    exact List.mem_filterMap.mpr ⟨Token.hole k, h, rfl⟩
  · intro h
    obtain ⟨t, ht, he⟩ := List.mem_filterMap.mp h
    cases t with
    | lit c => exact absurd he (by simp)
    | hole k' =>
      simp only [Option.some.injEq] at he
      subst he
      exact ht

theorem renderTokens_congr {r r' : String → String} :
    ∀ ts : List Token, (∀ k, Token.hole k ∈ ts → r k = r' k) →
      renderTokens r ts = renderTokens r' ts := by
  intro ts h
  induction ts with
  | nil => rfl
  | cons t ts ih =>
    cases t with
    | lit c =>
      simp only [renderTokens]
      rw [ih fun k hk => h k (List.mem_cons_of_mem _ hk)]
    | hole k =>
      simp only [renderTokens]
      rw [h k (List.mem_cons_self _ _), ih fun k hk => h k (List.mem_cons_of_mem _ hk)]

theorem replaceWith_congr {r r' : String → String} {cs : List Char}
    (h : ∀ k ∈ keys cs, r k = r' k) : replaceWith r cs = replaceWith r' cs :=
  renderTokens_congr _ fun k hk => h k (hole_mem_tokens_iff_mem_keys.mp hk)

theorem tokens_of_keys_nil : ∀ {cs : List Char}, keys cs = [] → tokens cs = cs.map .lit := by
  intro cs
  induction cs with
  | nil => intro _; rfl
  | cons c cs' ih =>
    intro h
    cases htm : tryMatchAt (c :: cs') with
    | some kr =>
      obtain ⟨k, rest⟩ := kr
      rw [keys_some htm] at h
      exact absurd h (by simp)
    | none =>
      rw [keys_cons_none htm] at h
      rw [tokens_cons_none htm, ih h]
      rfl

theorem renderTokens_map_lit (r : String → String) :
    ∀ cs : List Char, renderTokens r (cs.map .lit) = cs := by
  intro cs
  induction cs with
  | nil => rfl
  | cons c cs' ih => simp only [List.map_cons, renderTokens, ih]

theorem replaceWith_of_keys_nil {r : String → String} {cs : List Char}
    (h : keys cs = []) : replaceWith r cs = cs := by
  rw [replaceWith, tokens_of_keys_nil h, renderTokens_map_lit]

/-! ## Bridging the spec's path-resolution description and the code's -/

theorem foldl_specStep_none (segs : List String) : segs.foldl specStep none = none := by
  induction segs with
  | nil => rfl
  | cons k segs ih => simpa [specStep] using ih

theorem specStep_obj (fields : List (String × Value)) (k : String) :
    specStep (some (.obj fields)) k = lookupField fields k := rfl

/-- Whenever the spec's successive-mapping lookup produces a value, the
code's reduce (with its truthiness guard and broader indexing) produces the
same value: every intermediate is an object, hence truthy, and object
indexing is exactly field lookup. -/
theorem foldl_spec_to_code :
    ∀ (segs : List String) (w : Value) {v : Value},
      segs.foldl specStep (some w) = some v →
      segs.foldl lookupStep (some w) = some v := by
  intro segs
  induction segs with
  | nil => intro w v h; exact h
  | cons k segs ih =>
    intro w v h
    simp only [List.foldl_cons] at h ⊢
    cases w with
    | obj fields =>
      rw [specStep_obj] at h
      cases hl : lookupField fields k with
      | none =>
        rw [hl, foldl_specStep_none] at h
        exact absurd h (by simp)
      | some u =>
        rw [hl] at h
        have hc : lookupStep (some (Value.obj fields)) k = some u := by
          simp [lookupStep, truthy, index, hl]
        rw [hc]
        exact ih u h
    | null => rw [show specStep (some Value.null) k = none from rfl, foldl_specStep_none] at h; exact absurd h (by simp)
    | bool b => rw [show specStep (some (Value.bool b)) k = none from rfl, foldl_specStep_none] at h; exact absurd h (by simp)
    | num n => rw [show specStep (some (Value.num n)) k = none from rfl, foldl_specStep_none] at h; exact absurd h (by simp)
    | str s => rw [show specStep (some (Value.str s)) k = none from rfl, foldl_specStep_none] at h; exact absurd h (by simp)
    | arr xs => rw [show specStep (some (Value.arr xs)) k = none from rfl, foldl_specStep_none] at h; exact absurd h (by simp)
    | fn name => rw [show specStep (some (Value.fn name)) k = none from rfl, foldl_specStep_none] at h; exact absurd h (by simp)

theorem specResolve_to_pathResolve {vars : Value} {key : String} {v : Value}
    (h : specResolve vars key = some v) : pathResolve vars key = some v :=
  foldl_spec_to_code _ _ h

/-- When a key spec-resolves to a defined (non-null) value, the code renders
it exactly as the spec says: via its string form. -/
theorem renderKey_eq_renderSpec_of_defined {vars : Value} {key : String}
    (h : specResolvesDefined vars key = true) :
    renderKey vars key = renderSpec vars key := by
  unfold specResolvesDefined at h
  unfold renderSpec
  cases hs : specResolve vars key with
  | none => rw [hs] at h; exact absurd h (by simp)
  | some v =>
    rw [hs] at h
    rw [renderKey, specResolve_to_pathResolve hs]
    cases v with
    | null => exact absurd h (by simp)
    | bool b => rfl
    | num n => rfl
    | str s => rfl
    | arr xs => rfl
    | obj fields => rfl
    | fn name => rfl

/-- If the code's own lookup leaves a key unresolved, it renders as the
empty string. -/
theorem renderKey_of_unresolved {vars : Value} {key : String}
    (h : codeUnresolved vars key = true) : renderKey vars key = "" := by
  unfold codeUnresolved at h
  unfold renderKey
  cases hp : pathResolve vars key with
  | none => rfl
  | some v => rw [hp] at h; exact absurd h (by simp)

/-- A string with characters has positive length. -/
theorem string_length_pos_of_ne_empty {s : String} (h : s ≠ "") : 0 < s.length := by
  cases s with
  | mk data =>
    cases data with
    | nil => exact absurd rfl h
    | cons c cs => simp [String.length]

/-- `String.mk s.toList = s`. -/
theorem string_mk_toList (s : String) : String.mk s.toList = s := rfl

theorem foldl_lookupStep_none (segs : List String) : segs.foldl lookupStep none = none := by
  induction segs with
  | nil => rfl
  | cons k segs ih => simpa [lookupStep] using ih

theorem splitSegsAux_ne_nil (cs acc : List Char) : splitSegsAux cs acc ≠ [] := by
  induction cs, acc using splitSegsAux.induct with
  | case1 acc => simp [splitSegsAux]
  | case2 rest acc ih => simp [splitSegsAux]
  | case3 c rest acc hc ih => simpa [splitSegsAux, hc] using ih

theorem lookupField_none_of_forall {fields : List (String × Value)} {k : String}
    (h : ∀ p ∈ fields, p.1 ≠ k) : lookupField fields k = none := by
  induction fields with
  | nil => rfl
  | cons p rest ih =>
    obtain ⟨k', v⟩ := p
    simp only [lookupField]
    rw [if_neg (h ⟨k', v⟩ (List.mem_cons_self _ _))]
    exact ih fun q hq => h q (List.mem_cons_of_mem _ hq)

/-- Every member the model's `Object.prototype` table supplies is in the
`protoNames` superset. -/
theorem objProtoMembers_names_mem :
    ∀ p ∈ objProtoMembers, protoNames.contains p.1 = true := by decide

theorem objProto_lookup_none {s : String} (h : protoNames.contains s = false) :
    lookupField objProtoMembers s = none := by
  apply lookupField_none_of_forall
  intro p hp he
  have hm := objProtoMembers_names_mem p hp
  rw [he] at hm
  rw [hm] at h
  exact Bool.noConfusion h

theorem index_emptyObj_none {s : String} (h : protoNames.contains s = false) :
    index (.obj []) s = none :=
  objProto_lookup_none h

/-- Against the empty mapping, a placeholder key that avoids the
prototype-member names is unresolved: the key always has at least one
segment, and its first lookup — own fields and the inherited members
alike — yields `undefined`. -/
theorem pathResolve_emptyObj_avoidsProto {key : String}
    (h : keyAvoidsProto key = true) : pathResolve (.obj []) key = none := by
  unfold pathResolve
  cases hs : splitSegs key with
  | nil => exact absurd hs (splitSegsAux_ne_nil _ _)
  | cons s0 rest =>
    have hc : protoNames.contains s0 = false := by
      unfold keyAvoidsProto at h
      rw [hs] at h
      simp only [List.all_cons, Bool.and_eq_true] at h
      simpa using h.1
    simp only [List.foldl_cons]
    rw [show lookupStep (some (Value.obj [])) s0 = index (Value.obj []) s0 from rfl,
        index_emptyObj_none hc]
    exact foldl_lookupStep_none rest

theorem renderKey_emptyObj_avoidsProto {key : String}
    (h : keyAvoidsProto key = true) : renderKey (.obj []) key = "" := by
  rw [renderKey, pathResolve_emptyObj_avoidsProto h]

/-- `generatePrompt` reads the request only through the four accessors, so
two requests that agree on them resolve identically. -/
theorem generatePrompt_ext {lf : Option Client} {parse : String → Except Unit Value}
    {d d' : Details}
    (h1 : d.prompt_name = d'.prompt_name)
    (h2 : normalizeLabel d.prompt_label = normalizeLabel d'.prompt_label)
    (h3 : rawPromptText d.prompt_text = rawPromptText d'.prompt_text)
    (h4 : normalizeVariables parse d.prompt_variables
        = normalizeVariables parse d'.prompt_variables) :
    generatePrompt lf parse d = generatePrompt lf parse d' := by
  unfold generatePrompt
  rw [h1]
  cases d'.prompt_name with
  | none => rfl
  | some n =>
    dsimp only
    rw [h2, h3, h4]

/-- Every branch after the `prompt_name` validation returns a string. -/
theorem resolveNamed_isOk (lf : Option Client) (n : String) (label : Option String)
    (ptr : String) (vars : Value) :
    ∃ s : String, (resolveNamed lf n label ptr vars).1 = .ok s := by
  unfold resolveNamed
  split
  · exact ⟨_, rfl⟩
  · cases lf with
    | none => exact ⟨_, rfl⟩
    | some client =>
      dsimp only
      cases client.get n label with
      | ok p => exact ⟨_, rfl⟩
      | nullish => exact ⟨_, rfl⟩
      | fail =>
        dsimp only
        cases client.get n none with
        | ok p => exact ⟨_, rfl⟩
        | nullish => exact ⟨_, rfl⟩
        | fail => exact ⟨_, rfl⟩

theorem dbMediaMode_handler (v : Value) :
    dbMediaMode (some (handlerMediaMode v)) = handlerMediaMode v := by
  cases v with
  | str s =>
    by_cases hs : s = "audio_video"
    · simp [handlerMediaMode, dbMediaMode, hs]
    · simp [handlerMediaMode, dbMediaMode, hs]
  | null => rfl
  | bool b => rfl
  | num n => rfl
  | arr xs => rfl
  | obj fields => rfl
  | fn name => rfl

theorem handlerMediaMode_cases (v : Value) :
    handlerMediaMode v = "audio_only" ∨ handlerMediaMode v = "audio_video" := by
  cases v with
  | str s =>
    by_cases hs : s = "audio_video"
    · right; simp [handlerMediaMode, hs]
    · left; simp [handlerMediaMode, hs]
  | null => left; rfl
  | bool b => left; rfl
  | num n => left; rfl
  | arr xs => left; rfl
  | obj fields => left; rfl
  | fn name => left; rfl

theorem handlerMediaMode_eq_video_iff (v : Value) :
    handlerMediaMode v = "audio_video" ↔ v = .str "audio_video" := by
  cases v with
  | str s =>
    by_cases hs : s = "audio_video"
    · subst hs; simp [handlerMediaMode]
    · simp [handlerMediaMode, hs]
  | null => simp [handlerMediaMode]
  | bool b => simp [handlerMediaMode]
  | num n => simp [handlerMediaMode]
  | arr xs => simp [handlerMediaMode]
  | obj fields => simp [handlerMediaMode]
  | fn name => simp [handlerMediaMode]

/-! ## Claims -/

/-- C6: every placeholder whose dot-separated path fully resolves through
the variable mapping by successive key lookup to a defined (non-null) value
is replaced by that value's string form — compilation then coincides with
the spec-side rendering `renderSpec`; in particular a template that is
exactly `\x7b\x7b a.b \x7d\x7d` under the mapping `a ↦ (b ↦ "x")` compiles
to `"x"`. -/
theorem C6_resolved_renders_string_form :
    (∀ (t : String) (vars : Value),
      (∀ k ∈ keys t.toList, specResolvesDefined vars k = true) →
      manualCompile t vars = String.mk (replaceWith (renderSpec vars) t.toList)) ∧
    manualCompile "\x7b\x7b a.b \x7d\x7d" (.obj [("a", .obj [("b", .str "x")])]) = "x" := by
  constructor
  · intro t vars h
    unfold manualCompile manualCompileV
    rw [show toStringPrompt (.str t) = t from rfl]
    exact congrArg String.mk
      (replaceWith_congr fun k hk => renderKey_eq_renderSpec_of_defined (h k hk))
  · rfl

/-- Witness for C6 at the spec's concrete scenario `Hello \x7b\x7b user.name
\x7d\x7d!` with `user.name = "Ada"`. -/
theorem C6_witness :
    (∀ k ∈ keys ("Hello \x7b\x7b user.name \x7d\x7d!" : String).toList,
      specResolvesDefined (.obj [("user", .obj [("name", .str "Ada")])]) k = true) ∧
    manualCompile "Hello \x7b\x7b user.name \x7d\x7d!"
        (.obj [("user", .obj [("name", .str "Ada")])])
      = String.mk (replaceWith (renderSpec (.obj [("user", .obj [("name", .str "Ada")])]))
          ("Hello \x7b\x7b user.name \x7d\x7d!" : String).toList) :=
  ⟨by decide, C6_resolved_renders_string_form.1 "Hello \x7b\x7b user.name \x7d\x7d!"
    (.obj [("user", .obj [("name", .str "Ada")])]) (by decide)⟩

/-- C7 counterexample: the claim says a placeholder whose path meets a
non-mapping intermediate value renders as the empty string, but with the
mapping `a ↦ ["x"]` the template `\x7b\x7b a.0 \x7d\x7d` compiles to `"x"`,
not `""`: JavaScript property access indexes arrays, so `vars.a[0]` is
`"x"` even though `a`'s value is not a mapping (as `specResolve`'s
`undefined` result records). -/
theorem C7_counterexample :
    specResolve (.obj [("a", .arr [.str "x"])]) "a.0" = none ∧
    manualCompile "\x7b\x7b a.0 \x7d\x7d" (.obj [("a", .arr [.str "x"])]) = "x" ∧
    manualCompile "\x7b\x7b a.0 \x7d\x7d" (.obj [("a", .arr [.str "x"])]) ≠ "" := by
  refine ⟨rfl, rfl, ?_⟩
  rw [show manualCompile "\x7b\x7b a.0 \x7d\x7d" (.obj [("a", .arr [.str "x"])]) = "x" from rfl]
  simp

/-- C7 (amended): a placeholder whose dot-separated path the code's
JavaScript property lookup leaves unresolved renders as the empty string,
and substitution (a total function) does not raise — where that lookup,
unlike the spec's mapping-only description, also reaches array and string
elements and lengths and prototype-inherited members such as `toString`.
The theorem states it for keys whose segments avoid the prototype-member
names (`keyAvoidsProto`), the region where the embedding's lookup is
exactly the program's, so that `codeUnresolved` means the program's
`undefined`: a template all of whose placeholder keys are such renders with
every placeholder replaced by the empty string. -/
theorem C7_amended_unresolved_renders_empty :
    ∀ (t : String) (vars : Value),
      (∀ k ∈ keys t.toList, codeUnresolved vars k = true ∧ keyAvoidsProto k = true) →
      manualCompile t vars = String.mk (replaceWith (fun _ => "") t.toList) := by
  intro t vars h
  unfold manualCompile manualCompileV
  rw [show toStringPrompt (.str t) = t from rfl]
  exact congrArg String.mk (replaceWith_congr fun k hk => renderKey_of_unresolved (h k hk).1)

/-- Witness for the amended C7: `Hi \x7b\x7b missing.path \x7d\x7d` against
the empty mapping. -/
theorem C7_amended_witness :
    (∀ k ∈ keys ("Hi \x7b\x7b missing.path \x7d\x7d" : String).toList,
      codeUnresolved (.obj []) k = true ∧ keyAvoidsProto k = true) ∧
    manualCompile "Hi \x7b\x7b missing.path \x7d\x7d" (.obj [])
      = String.mk (replaceWith (fun _ => "") ("Hi \x7b\x7b missing.path \x7d\x7d" : String).toList) :=
  ⟨by decide, C7_amended_unresolved_renders_empty "Hi \x7b\x7b missing.path \x7d\x7d"
    (.obj []) (by decide)⟩

/-- C9: substitution performs no recursive expansion: a template with no
placeholders is returned unchanged whatever the mapping holds, and a
substituted value containing placeholder syntax appears verbatim in the
output — `\x7b\x7b a \x7d\x7d` under `a ↦ "\x7b\x7b x \x7d\x7d", x ↦ "y"`
compiles to `\x7b\x7b x \x7d\x7d`, not `"y"`. -/
theorem C9_no_recursive_expansion :
    (∀ (t : String) (vars : Value), keys t.toList = [] → manualCompile t vars = t) ∧
    manualCompile "\x7b\x7b a \x7d\x7d"
        (.obj [("a", .str "\x7b\x7b x \x7d\x7d"), ("x", .str "y")])
      = "\x7b\x7b x \x7d\x7d" := by
  constructor
  · intro t vars h
    unfold manualCompile manualCompileV
    rw [show toStringPrompt (.str t) = t from rfl, replaceWith_of_keys_nil h, string_mk_toList]
  · rfl

/-- Witness for C9's placeholder-free conjunct. -/
theorem C9_witness :
    keys ("no placeholders here" : String).toList = [] ∧
    manualCompile "no placeholders here" (.obj [("a", .str "v")]) = "no placeholders here" :=
  ⟨by decide, C9_no_recursive_expansion.1 "no placeholders here" (.obj [("a", .str "v")])
    (by decide)⟩

/-- C1 counterexample: the claim's concrete scenario — inline text
`Hi \x7b\x7b missing.path \x7d\x7d`, empty variables, and no name — does
not resolve to `"Hi "`: the `prompt_name` validation on line 37 of
`src/promptManager.js` runs before the inline-text check, so the call
throws `Missing prompt_name in details` instead. -/
theorem C1_counterexample :
    generatePrompt none parseFail
        { prompt_name := none,
          prompt_text := some (.str "Hi \x7b\x7b missing.path \x7d\x7d"),
          prompt_variables := some (.obj []) }
      = (.error missingNameMsg, []) ∧
    (generatePrompt none parseFail
        { prompt_name := none,
          prompt_text := some (.str "Hi \x7b\x7b missing.path \x7d\x7d"),
          prompt_variables := some (.obj []) }).1 ≠ .ok "Hi " := by
  refine ⟨rfl, ?_⟩
  rw [show (generatePrompt none parseFail
      { prompt_name := none,
        prompt_text := some (.str "Hi \x7b\x7b missing.path \x7d\x7d"),
        prompt_variables := some (.obj []) }).1 = .error missingNameMsg from rfl]
  simp

/-- C1 (amended): the name field is required even when inline text is
given — a falsy `prompt_name` makes resolution throw the validation error
without any remote call; when a name is present alongside the inline text,
the claim's scenario does return `"Hi "`. -/
theorem C1_amended_name_always_required :
    (∀ (lf : Option Client) (parse : String → Except Unit Value) (d : Details),
      d.prompt_name = none ∨ d.prompt_name = some "" →
      generatePrompt lf parse d = (.error missingNameMsg, [])) ∧
    generatePrompt none parseFail
        { prompt_name := some "greeting",
          prompt_text := some (.str "Hi \x7b\x7b missing.path \x7d\x7d"),
          prompt_variables := some (.obj []) }
      = (.ok "Hi ", []) := by
  constructor
  · intro lf parse d h
    unfold generatePrompt
    rcases h with h | h
    · rw [h]
    · rw [h]
      simp
  · rfl

/-- Witness for the amended C1 at a nameless request. -/
theorem C1_amended_witness :
    generatePrompt (some alwaysOkClient) parseFail { prompt_name := none }
      = (.error missingNameMsg, []) :=
  C1_amended_name_always_required.1 (some alwaysOkClient) parseFail
    { prompt_name := none } (Or.inl rfl)

/-- C2: once validation passes (a non-falsy name is present), `generatePrompt`
never throws, whatever the remote client, its outcomes (rejection, nullish
result, throwing `compile`) and the `JSON.parse` oracle do: every branch
returns some string. -/
theorem C2_no_throw_after_validation :
    ∀ (lf : Option Client) (parse : String → Except Unit Value) (d : Details) (n : String),
      d.prompt_name = some n → n ≠ "" →
      ∃ s : String, (generatePrompt lf parse d).1 = .ok s := by
  intro lf parse d n hname hn
  unfold generatePrompt
  rw [hname]
  dsimp only
  rw [if_neg hn]
  exact resolveNamed_isOk lf n (normalizeLabel d.prompt_label)
    (rawPromptText d.prompt_text) (normalizeVariables parse d.prompt_variables)

/-- Witness for C2 with a client whose labelled lookups reject. -/
theorem C2_witness :
    ∃ s : String,
      (generatePrompt (some labelFailClient) parseFail
          { prompt_name := some "greeting", prompt_label := some "v2" }).1 = .ok s :=
  C2_no_throw_after_validation (some labelFailClient) parseFail
    { prompt_name := some "greeting", prompt_label := some "v2" } "greeting" rfl (by simp)

/-- C3 counterexample: a request with non-empty inline text but no name does
not return the substituted inline text — it throws the validation error
(the claim's universal quantification over "every request whose inlineText
is non-empty" fails on nameless requests). -/
theorem C3_counterexample :
    generatePrompt (some alwaysOkClient) parseFail
        { prompt_name := none, prompt_text := some (.str "Hello inline") }
      = (.error missingNameMsg, []) ∧
    (generatePrompt (some alwaysOkClient) parseFail
        { prompt_name := none, prompt_text := some (.str "Hello inline") }).1
      ≠ .ok "Hello inline" := by
  refine ⟨rfl, ?_⟩
  rw [show (generatePrompt (some alwaysOkClient) parseFail
      { prompt_name := none, prompt_text := some (.str "Hello inline") }).1
    = .error missingNameMsg from rfl]
  simp

/-- C3 (amended): for every request that passes name validation and whose
inline text is non-empty after trimming, resolution returns the trimmed
inline text with variables substituted and performs zero remote calls,
whatever client is configured. -/
theorem C3_amended_inline_overrides_without_remote_calls :
    ∀ (lf : Option Client) (parse : String → Except Unit Value) (d : Details) (n : String),
      d.prompt_name = some n → n ≠ "" →
      jsTrim (rawPromptText d.prompt_text) ≠ "" →
      generatePrompt lf parse d =
        (.ok (manualCompile (jsTrim (rawPromptText d.prompt_text))
            (normalizeVariables parse d.prompt_variables)), []) := by
  intro lf parse d n hname hn hinline
  unfold generatePrompt
  rw [hname]
  dsimp only
  rw [if_neg hn]
  unfold resolveNamed
  rw [if_pos (string_length_pos_of_ne_empty hinline)]

/-- Witness for the amended C3: the inline scenario with a name present and
an always-successful client resolves inline, with an empty call trace. -/
theorem C3_amended_witness :
    generatePrompt (some alwaysOkClient) parseFail
        { prompt_name := some "greeting",
          prompt_text := some (.str " Hi \x7b\x7b missing.path \x7d\x7d ") }
      = (.ok "Hi ", []) := by
  have h := C3_amended_inline_overrides_without_remote_calls (some alwaysOkClient) parseFail
    { prompt_name := some "greeting",
      prompt_text := some (.str " Hi \x7b\x7b missing.path \x7d\x7d ") }
    "greeting" rfl (by simp) (by decide)
  exact h.trans rfl

/-- C4: when a label is supplied and the labelled remote lookup rejects,
exactly one retry without the label is performed, with the labelled call
strictly first in the call trace; and when the unlabelled retry succeeds,
the value returned is the one compiled from the retried prompt. -/
theorem C4_labelled_failure_retries_unlabelled :
    ∀ (client : Client) (parse : String → Except Unit Value) (d : Details) (n l : String),
      d.prompt_name = some n → n ≠ "" →
      jsTrim (rawPromptText d.prompt_text) = "" →
      normalizeLabel d.prompt_label = some l →
      client.get n (some l) = .fail →
      (generatePrompt (some client) parse d).2 = [(n, some l), (n, none)] ∧
      ∀ p : RemotePrompt, client.get n none = .ok p →
        (generatePrompt (some client) parse d).1
          = .ok (compileFetched p (normalizeVariables parse d.prompt_variables)) := by
  intro client parse d n l hname hn hT hL hfail
  unfold generatePrompt
  rw [hname]
  dsimp only
  rw [if_neg hn]
  unfold resolveNamed
  rw [hT]
  rw [if_neg (by simp)]
  dsimp only
  rw [hL, hfail]
  dsimp only
  constructor
  · cases hr : client.get n none <;> rfl
  · intro p hp
    rw [hp]

/-- Witness for C4: against `labelFailClient` the request
`(name "greeting", label "v2")` performs the labelled call then the
unlabelled retry, and returns the retried prompt's compilation. -/
theorem C4_witness :
    (generatePrompt (some labelFailClient) parseFail
        { prompt_name := some "greeting", prompt_label := some "v2" }).2
      = [("greeting", some "v2"), ("greeting", none)] ∧
    (generatePrompt (some labelFailClient) parseFail
        { prompt_name := some "greeting", prompt_label := some "v2" }).1 = .ok "Hello" := by
  have h := C4_labelled_failure_retries_unlabelled labelFailClient parseFail
    { prompt_name := some "greeting", prompt_label := some "v2" }
    "greeting" "v2" rfl (by simp) rfl rfl rfl
  exact ⟨h.1, (h.2 helloPrompt rfl).trans rfl⟩

/-- C5: with no remote client configured and no inline text, resolution
returns the fixed default template with variables substituted, performing
no remote call. -/
theorem C5_no_client_static_fallback :
    ∀ (parse : String → Except Unit Value) (d : Details) (n : String),
      d.prompt_name = some n → n ≠ "" →
      jsTrim (rawPromptText d.prompt_text) = "" →
      generatePrompt none parse d =
        (.ok (manualCompile staticPrompt (normalizeVariables parse d.prompt_variables)), []) := by
  intro parse d n hname hn hT
  unfold generatePrompt
  rw [hname]
  dsimp only
  rw [if_neg hn]
  unfold resolveNamed
  rw [hT]
  rw [if_neg (by simp)]

/-- Witness for C5: the static fallback (which holds no placeholder) is
returned verbatim, with an empty call trace. -/
theorem C5_witness :
    generatePrompt none parseFail { prompt_name := some "greeting" }
      = (.ok "You are a helpful, concise voice assistant. Provide clear, direct answers.", []) := by
  have h := C5_no_client_static_fallback parseFail { prompt_name := some "greeting" }
    "greeting" rfl (by simp) rfl
  exact h.trans rfl

/-- C8 counterexample: the claim's "so every placeholder in the chosen
template renders as the empty string" is false in the program.  With the
malformed variables argument `"not json"` (whose parse throws, so the empty
mapping `\x7b\x7d` is substituted) the inline template
`\x7b\x7b toString \x7d\x7d` resolves `(\x7b\x7d)["toString"]` through the
prototype chain to `Object.prototype.toString`, and the placeholder renders
that function's string form — not the empty string. -/
theorem C8_counterexample :
    generatePrompt none parseFail
        { prompt_name := some "x",
          prompt_text := some (.str "\x7b\x7b toString \x7d\x7d"),
          prompt_variables := some (.str "not json") }
      = (.ok "function toString() \x7b [native code] \x7d", []) ∧
    (generatePrompt none parseFail
        { prompt_name := some "x",
          prompt_text := some (.str "\x7b\x7b toString \x7d\x7d"),
          prompt_variables := some (.str "not json") }).1 ≠ .ok "" := by
  refine ⟨rfl, ?_⟩
  rw [show (generatePrompt none parseFail
      { prompt_name := some "x",
        prompt_text := some (.str "\x7b\x7b toString \x7d\x7d"),
        prompt_variables := some (.str "not json") }).1
    = .ok "function toString() \x7b [native code] \x7d" from rfl]
  simp

/-- C8 (amended): malformed variables are recovered locally: a string
argument whose parse throws normalizes to the empty mapping, as does any
argument that is not an object after the optional parse; resolution then
behaves exactly as if the empty mapping had been supplied (so no error
surfaces for this condition); and every placeholder whose path names no
prototype-inherited property renders as the empty string — one naming an
inherited member, such as `toString`, instead renders that member's string
form. -/
theorem C8_amended_malformed_variables_degrade :
    (∀ (parse : String → Except Unit Value) (s : String), parse s = .error () →
      normalizeVariables parse (some (.str s)) = .obj []) ∧
    (∀ (parse : String → Except Unit Value) (pv : Option Value),
      (truthy (afterParse parse pv) && typeofObject (afterParse parse pv)) = false →
      normalizeVariables parse pv = .obj []) ∧
    (∀ (lf : Option Client) (parse : String → Except Unit Value) (d : Details),
      normalizeVariables parse d.prompt_variables = .obj [] →
      generatePrompt lf parse d
        = generatePrompt lf parse { d with prompt_variables := some (.obj []) }) ∧
    (∀ k : String, keyAvoidsProto k = true → renderKey (.obj []) k = "") := by
  refine ⟨?_, ?_, ?_, fun k hk => renderKey_emptyObj_avoidsProto hk⟩
  · intro parse s h
    simp only [normalizeVariables, afterParse, h]
    rfl
  · intro parse pv h
    unfold normalizeVariables
    rw [h]
    rfl
  · intro lf parse d h
    exact generatePrompt_ext rfl rfl rfl (by rw [h]; rfl)

/-- Witness for the amended C8: an unparseable string argument yields the
empty mapping, the resolution result is unchanged from supplying the empty
mapping outright, and a sample prototype-free placeholder renders empty. -/
theorem C8_amended_witness :
    normalizeVariables parseFail (some (.str "not json")) = .obj [] ∧
    generatePrompt none parseFail
        { prompt_name := some "greeting", prompt_variables := some (.str "not json") }
      = generatePrompt none parseFail
          { prompt_name := some "greeting", prompt_variables := some (.obj []) } ∧
    renderKey (.obj []) "missing.path" = "" :=
  ⟨C8_amended_malformed_variables_degrade.1 parseFail "not json" rfl,
   C8_amended_malformed_variables_degrade.2.2.1 none parseFail
     { prompt_name := some "greeting", prompt_variables := some (.str "not json") } rfl,
   C8_amended_malformed_variables_degrade.2.2.2 "missing.path" (by decide)⟩

/-- C10: every row the `POST /api/conversations` handler upserts stores a
`media_mode` in `\x7baudio_only, audio_video\x7d`, and it stores
`"audio_video"` exactly when the request body supplied the string
`"audio_video"`; every other supplied value (absent, null, non-string, or
any other string) is normalized to `"audio_only"` before the upsert. -/
theorem C10_media_mode_invariant :
    ∀ (body : ConvBody) (uuid : String) (row : ConvRow),
      postConversations body uuid = .inserted row →
      (row.media_mode = "audio_only" ∨ row.media_mode = "audio_video") ∧
      (row.media_mode = "audio_video" ↔ body.media_mode = .str "audio_video") := by
  intro body uuid row h
  unfold postConversations at h
  dsimp only at h
  split at h
  · exact absurd h (by simp)
  · injection h with h'
    subst h'
    dsimp only
    rw [dbMediaMode_handler]
    exact ⟨handlerMediaMode_cases body.media_mode,
      handlerMediaMode_eq_video_iff body.media_mode⟩

/-- Witness for C10: a valid body supplying the invalid value `"bogus"`
upserts `exRow`, whose `media_mode` is `"audio_only"`. -/
theorem C10_witness :
    postConversations exBody "uuid-1" = .inserted exRow ∧
    (exRow.media_mode = "audio_only" ∨ exRow.media_mode = "audio_video") ∧
    (exRow.media_mode = "audio_video" ↔ exBody.media_mode = .str "audio_video") :=
  ⟨rfl, (C10_media_mode_invariant exBody "uuid-1" exRow rfl).1,
    (C10_media_mode_invariant exBody "uuid-1" exRow rfl).2⟩

end LKB
